import Mathlib

/-!
Shallow embedding of the mcp-publisher `publish` and `validate` commands
(`cmd/publisher/commands/publish.go` and `cmd/publisher/commands/validate.go`).

Pure logic (issue formatting, URL construction, control flow of the two
commands) is translated directly.  External effects — file reads, JSON
parsing by `encoding/json`, and the two HTTP round trips — are abstracted
into an environment record whose fields are the outcomes the Go code
observes; the command models record which endpoint URLs they request so
that call counts can be stated.
-/

/-- Structure of one validation issue, mirroring
`validators.ValidationIssue` (fields `Type`, `Path`, `Message`, `Severity`,
`Reference`, serialized as lowercase JSON keys). -/
structure ValidationIssue where
  type : String
  path : String
  message : String
  severity : String
  reference : String
deriving Repr, DecidableEq

/-- Structure of a validation response, mirroring
`validators.ValidationResult` (fields `Valid`, `Issues`). -/
structure ValidationResult where
  valid : Bool
  issues : List ValidationIssue
deriving Repr, DecidableEq

/-- Severity constant `validators.ValidationIssueSeverityWarning`. -/
def ValidationIssueSeverityWarning : String := "warning"

/-- Severity constant `validators.ValidationIssueSeverityError`. -/
def ValidationIssueSeverityError : String := "error"

/-- Fields of `apiv0.ServerJSON` that the commands inspect. -/
structure ServerJSON where
  schema : String
  name : String
  description : String
  version : String
deriving Repr, DecidableEq

/-- Boolean test that `pat` occurs at the very start of `l`, character by
character. -/
def startsWithChars : List Char → List Char → Bool
  | [], _ => true
  | _ :: _, [] => false
  | p :: ps, c :: cs => p == c && startsWithChars ps cs

/-- Boolean test that `pat` occurs contiguously somewhere inside `l`. -/
def containsChars (pat : List Char) : List Char → Bool
  | [] => pat.isEmpty
  | c :: cs => startsWithChars pat (c :: cs) || containsChars pat cs

/-- Boolean substring test on strings, via their character lists. -/
def strContains (s pat : String) : Bool :=
  containsChars pat.data s.data

/-- Default registry URL used when the token store records no override
(constant `DefaultRegistryURL` of the `commands` package). -/
def DefaultRegistryURL : String := "https://registry.modelcontextprotocol.io"

/-- Current canonical schema URL (`model.CurrentSchemaURL`); the 2025-12-11
value appears in the repository's tests. -/
def CurrentSchemaURL : String :=
  "https://static.modelcontextprotocol.io/schemas/2025-12-11/server.schema.json"

/-- Changelog URL hard-coded in `printSchemaValidationErrors`. -/
def migrationURL : String :=
  "https://github.com/modelcontextprotocol/registry/blob/main/docs/reference/server-json/CHANGELOG.md"

/-- Migration-checklist URL hard-coded in `printSchemaValidationErrors`. -/
def checklistURL : String := migrationURL ++ "#migration-checklist-for-publishers"

/-- Fixed tail of the `schema-field-required` aggregated message (everything
in the format string after the leading fixed sentence; fully concrete). -/
def fieldRequiredMsg : String :=
  "$schema field is required. Expected current schema: " ++ CurrentSchemaURL ++
  ". 📋 Migration checklist: " ++ checklistURL ++
  " 📖 Full changelog with examples: " ++ migrationURL

/-- Concrete part of the `schema-version-deprecated` aggregated message that
follows the descriptor's schema URL. -/
def deprecatedTail : String :=
  ". Expected current schema: " ++ CurrentSchemaURL ++
  ". Migrate to the current schema format for new servers. 📋 Migration checklist: " ++
  checklistURL ++ " 📖 Full changelog with examples: " ++ migrationURL

/-- Concrete part of the `schema-version-extraction-error` aggregated message
that follows the issue's own message. -/
def extractionTail : String :=
  ". 📋 Migration checklist: " ++ checklistURL ++
  " 📖 Full changelog with examples: " ++ migrationURL

/-- Aggregated message built for one issue by the `switch issue.Reference`
in `printSchemaValidationErrors`; `none` for references outside the three
schema cases (the loop continues past those).  The severity branch of the
`schema-version-deprecated` case only changes what is printed to stdout,
not the returned message. -/
def schemaIssueMessage (serverJSON : ServerJSON) (issue : ValidationIssue) :
    Option String :=
  if issue.reference = "schema-field-required" then
    some fieldRequiredMsg
  else if issue.reference = "schema-version-deprecated" then
    some (issue.message ++ (". deprecated schema detected: " ++
      (serverJSON.schema ++ deprecatedTail)))
  else if issue.reference = "schema-version-extraction-error" then
    some (issue.message ++ extractionTail)
  else
    none

/-- Loop of `printSchemaValidationErrors`: the first issue matching one of
the three schema references wins and its message is returned at once. -/
def firstSchemaMessage (serverJSON : ServerJSON) :
    List ValidationIssue → String
  | [] => ""
  | issue :: rest =>
    match schemaIssueMessage serverJSON issue with
    | some msg => msg
    | none => firstSchemaMessage serverJSON rest

/-- Model of `printSchemaValidationErrors`: returns the formatted error
message string if any schema issue was rendered, empty string otherwise. -/
def printSchemaValidationErrors (result : ValidationResult)
    (serverJSON : ServerJSON) : String :=
  firstSchemaMessage serverJSON result.issues

/-- First issue of the list whose reference is one of the three schema
references handled by the formatter's first pass. -/
def findFirstSchemaIssue : List ValidationIssue → Option ValidationIssue
  | [] => none
  | issue :: rest =>
    if issue.reference = "schema-field-required" ∨
       issue.reference = "schema-version-deprecated" ∨
       issue.reference = "schema-version-extraction-error" then
      some issue
    else
      findFirstSchemaIssue rest

/-- Text of one numbered entry of the second pass of
`printValidationIssues` (the three or four stdout lines for one issue:
number, severity, path, type, message, and reference when non-empty). -/
def renderIssueEntry (n : Nat) (issue : ValidationIssue) : String :=
  toString n ++ ". [" ++ issue.severity ++ "] " ++ issue.path ++
  " (" ++ issue.type ++ ")\n   " ++ issue.message ++ "\n" ++
  (if issue.reference = "" then "" else "   Reference: " ++ issue.reference ++ "\n")

/-- Loop of the second pass of `printValidationIssues`: issues whose
reference is `schema-field-required` or `schema-version-deprecated` are
skipped (without advancing the number), every other issue produces one
numbered entry. -/
def secondPassEntries (n : Nat) : List ValidationIssue → List String
  | [] => []
  | issue :: rest =>
    if issue.reference = "schema-field-required" ∨
       issue.reference = "schema-version-deprecated" then
      secondPassEntries n rest
    else
      renderIssueEntry n issue :: secondPassEntries (n + 1) rest

/-- Model of `printValidationIssues`.  The first component is the returned
formatted error message string (always the first pass's result); the second
component models the numbered list printed to stdout by the second pass,
which runs only when `result.Valid` is false. -/
def printValidationIssues (result : ValidationResult)
    (serverJSON : ServerJSON) : String × List String :=
  let formattedErrorMsg := printSchemaValidationErrors result serverJSON
  if result.valid then
    (formattedErrorMsg, [])
  else
    (formattedErrorMsg, secondPassEntries 1 result.issues)

/-- Numbered rendering, starting at `n`, of a list of issues: one entry
each.  Used to state what the second pass produces. -/
def numberedEntries (n : Nat) : List ValidationIssue → List String
  | [] => []
  | issue :: rest => renderIssueEntry n issue :: numberedEntries (n + 1) rest

/-- Boolean model of `strings.HasSuffix(s, "/")`: the last character of `s`
is a slash. -/
def hasSuffixSlash (s : String) : Bool :=
  match s.data.getLast? with
  | some c => c == '/'
  | none => false

/-- URL targeted by `publishToRegistry`: a slash is appended to the base
exactly when it does not already end in one, then `"v0/publish"`. -/
def publishEndpointURL (registryURL : String) : String :=
  (if hasSuffixSlash registryURL then registryURL else registryURL ++ "/") ++
  "v0/publish"

/-- URL targeted by `validateViaAPI`: a slash is appended to the base
exactly when it does not already end in one, then `"v0/validate"`. -/
def validateEndpointURL (registryURL : String) : String :=
  (if hasSuffixSlash registryURL then registryURL else registryURL ++ "/") ++
  "v0/validate"

/-- Outcome of one `os.ReadFile` call. -/
inductive ReadResult where
  | notExist
  | readError (msg : String)
  | ok (data : String)
deriving Repr, DecidableEq

/-- Map lookup on the decoded token file, mirroring Go's
`tokenInfo[key]`, which yields the empty string for a missing key. -/
def lookupStr (m : List (String × String)) (k : String) : String :=
  match m.lookup k with
  | some v => v
  | none => ""

/-- Observable outcome of one invocation of `publishToRegistry`: the status
code it reports together with its error message, `none` meaning success. -/
structure PublishCallResult where
  statusCode : Nat
  errMsg : Option String
deriving Repr, DecidableEq

/-- Environment of one run of `PublishCommand`: the outcomes of the file
reads, JSON decodes and the (at most) two client calls it can make.
Selection of the server file from `args` is absorbed into
`serverFileRead`; the token path (home directory + `TokenFileName`) is
absorbed into `tokenRead`. -/
structure PublishEnv where
  serverFileRead : ReadResult
  serverParse : Except String ServerJSON
  userHomeDir : Except String String
  tokenRead : ReadResult
  tokenParse : Except String (List (String × String))
  publishResult : PublishCallResult
  validateResult : Except String ValidationResult

/-- Result of one command run: the returned error (`none` for success) and
the endpoint URLs requested, in order, by invocations of
`publishToRegistry` and `validateViaAPI`. -/
structure CmdResult where
  outcome : Option String
  publishRequests : List String
  validateRequests : List String
deriving Repr, DecidableEq

/-- Model of `PublishCommand` (`publish.go`): read the descriptor, decode
it, load the token store, publish, and on a 422 failure fall back to the
validate endpoint and to the shared issue formatter. -/
def PublishCommand (env : PublishEnv) : CmdResult :=
  match env.serverFileRead with
  | ReadResult.notExist =>
    ⟨some "server.json not found. Run 'mcp-publisher init' to create one", [], []⟩
  | ReadResult.readError e => ⟨some ("failed to read server.json: " ++ e), [], []⟩
  | ReadResult.ok _ =>
    match env.serverParse with
    | Except.error e => ⟨some ("invalid server.json: " ++ e), [], []⟩
    | Except.ok serverJSON =>
      match env.userHomeDir with
      | Except.error e => ⟨some ("failed to get home directory: " ++ e), [], []⟩
      | Except.ok _ =>
        match env.tokenRead with
        | ReadResult.notExist =>
          ⟨some "not authenticated. Run 'mcp-publisher login <method>' first", [], []⟩
        | ReadResult.readError e => ⟨some ("failed to read token: " ++ e), [], []⟩
        | ReadResult.ok _ =>
          match env.tokenParse with
          | Except.error e => ⟨some ("invalid token data: " ++ e), [], []⟩
          | Except.ok tokenInfo =>
            let registryURL :=
              if lookupStr tokenInfo "registry" = "" then DefaultRegistryURL
              else lookupStr tokenInfo "registry"
            let pURL := publishEndpointURL registryURL
            match env.publishResult.errMsg with
            | none => ⟨none, [pURL], []⟩
            | some perr =>
              if env.publishResult.statusCode = 422 then
                let vURL := validateEndpointURL registryURL
                match env.validateResult with
                | Except.error _ => ⟨some ("publish failed: " ++ perr), [pURL], [vURL]⟩
                | Except.ok result =>
                  let formattedErrorMsg := (printValidationIssues result serverJSON).1
                  if result.valid then
                    ⟨some ("publish failed: " ++ perr), [pURL], [vURL]⟩
                  else
                    if formattedErrorMsg = "" then
                      ⟨some "validation failed", [pURL], [vURL]⟩
                    else
                      ⟨some formattedErrorMsg, [pURL], [vURL]⟩
              else
                ⟨some ("publish failed: " ++ perr), [pURL], []⟩

/-- Server file chosen by the argument loop of `ValidateCommand`: the last
argument not starting with a dash, defaulting to `server.json`. -/
def chosenServerFile : List String → String → String
  | [], acc => acc
  | a :: rest, acc =>
    chosenServerFile rest (if a.startsWith "-" then acc else a)

/-- Registry URL resolution of `ValidateCommand`: any failure to read or
decode the token file, or an empty `registry` entry, silently falls back to
the default registry URL. -/
def validateRegistryURL (tokenRead : ReadResult)
    (tokenParse : Except String (List (String × String))) : String :=
  match tokenRead with
  | ReadResult.ok _ =>
    match tokenParse with
    | Except.ok tokenInfo =>
      if lookupStr tokenInfo "registry" = "" then DefaultRegistryURL
      else lookupStr tokenInfo "registry"
    | Except.error _ => DefaultRegistryURL
  | _ => DefaultRegistryURL

/-- Environment of one run of `ValidateCommand`. -/
structure ValidateEnv where
  args : List String
  serverFileRead : ReadResult
  serverParse : Except String ServerJSON
  userHomeDir : Except String String
  tokenRead : ReadResult
  tokenParse : Except String (List (String × String))
  validateResult : Except String ValidationResult

/-- Model of `ValidateCommand` (`validate.go`): parse arguments (a help
flag returns at once), read and decode the descriptor, resolve the registry
URL with the token store as an optional hint, call the validate endpoint,
and report through the shared formatter. -/
def ValidateCommand (env : ValidateEnv) : CmdResult :=
  if env.args.any (fun a => a == "--help" || a == "-h") then
    ⟨none, [], []⟩
  else
    let serverFile := chosenServerFile env.args "server.json"
    match env.serverFileRead with
    | ReadResult.notExist =>
      ⟨some (serverFile ++ " not found, please check the file path"), [], []⟩
    | ReadResult.readError e =>
      ⟨some ("failed to read " ++ serverFile ++ ": " ++ e), [], []⟩
    | ReadResult.ok _ =>
      match env.serverParse with
      | Except.error e => ⟨some ("invalid JSON: " ++ e), [], []⟩
      | Except.ok serverJSON =>
        match env.userHomeDir with
        | Except.error e => ⟨some ("failed to get home directory: " ++ e), [], []⟩
        | Except.ok _ =>
          let registryURL := validateRegistryURL env.tokenRead env.tokenParse
          let vURL := validateEndpointURL registryURL
          match env.validateResult with
          | Except.error e => ⟨some ("validation failed: " ++ e), [], [vURL]⟩
          | Except.ok result =>
            let formattedErrorMsg := (printValidationIssues result serverJSON).1
            if result.valid then
              ⟨none, [], [vURL]⟩
            else
              if formattedErrorMsg = "" then
                ⟨some "validation failed", [], [vURL]⟩
              else
                ⟨some formattedErrorMsg, [], [vURL]⟩

/-- Descriptor with the deprecated 2025-07-09 schema URL, as in the
repository's tests. -/
def sjDep : ServerJSON :=
  ⟨"https://static.modelcontextprotocol.io/schemas/2025-07-09/server.schema.json",
   "com.example/test-server", "A test server", "1.0.0"⟩

/-- Warning-severity deprecated-schema issue, as in the repository's
tests. -/
def issueDepW : ValidationIssue :=
  ⟨"semantic", "schema", "schema version 2025-07-09 is not the current version",
   "warning", "schema-version-deprecated"⟩

/-- Semantic version-range issue, as in the repository's tests. -/
def issueRange : ValidationIssue :=
  ⟨"semantic", "version", "version must be a specific version, not a range",
   "error", "semantic-version-range"⟩

/-- Required-schema-field issue whose message differs from the formatter's
fixed text, as in the repository's `TestPublishCommand_422WithMultipleIssues`. -/
def issueFieldReq : ValidationIssue :=
  ⟨"schema", "name", "name is required", "error", "schema-field-required"⟩

/-- Schema-version extraction issue, as in the repository's tests. -/
def issueExtr : ValidationIssue :=
  ⟨"schema", "schema", "failed to extract schema version from URL",
   "error", "schema-version-extraction-error"⟩

/-- Failure modes of the token store for `ValidateCommand`: the file is
absent or unreadable, its JSON does not decode, or its `registry` entry is
empty. -/
def tokenStoreUnusable (tokenRead : ReadResult)
    (tokenParse : Except String (List (String × String))) : Prop :=
  match tokenRead with
  | ReadResult.ok _ =>
    match tokenParse with
    | Except.ok tokenInfo => lookupStr tokenInfo "registry" = ""
    | Except.error _ => True
  | _ => True

/-- Publish run whose publish call fails with 422 and whose validate call
succeeds reporting `valid == true` with no issues. -/
def envC1ce : PublishEnv :=
  ⟨ReadResult.ok "data", Except.ok sjDep, Except.ok "/home/u",
   ReadResult.ok "tok",
   Except.ok [("token", "t"), ("registry", "https://example.com")],
   ⟨422, some "server returned status 422: boom"⟩,
   Except.ok ⟨true, []⟩⟩

/-- Publish run whose publish call fails with 422 and whose validate call
reports a single non-schema issue (`semantic-version-range`). -/
def envC2ce : PublishEnv :=
  ⟨ReadResult.ok "data", Except.ok sjDep, Except.ok "/home/u",
   ReadResult.ok "tok",
   Except.ok [("token", "t"), ("registry", "https://example.com")],
   ⟨422, some "server returned status 422: boom"⟩,
   Except.ok ⟨false, [issueRange]⟩⟩

theorem startsWithChars_append (p l ys : List Char)
    (h : startsWithChars p l = true) : startsWithChars p (l ++ ys) = true := by
  induction p generalizing l with
  | nil => simp [startsWithChars]
  | cons a as ih =>
    cases l with
    | nil => simp [startsWithChars] at h
    | cons c cs =>
      simp [startsWithChars] at h ⊢
      exact ⟨h.1, ih cs h.2⟩

theorem startsWithChars_self (p ys : List Char) :
    startsWithChars p (p ++ ys) = true := by
  induction p with
  | nil => simp [startsWithChars]
  | cons a as ih => simp [startsWithChars, ih]

theorem containsChars_of_startsWithChars (p l : List Char)
    (h : startsWithChars p l = true) : containsChars p l = true := by
  cases l with
  | nil =>
    cases p with
    | nil => simp [containsChars]
    | cons a as => simp [startsWithChars] at h
  | cons c cs => simp [containsChars, h]

theorem containsChars_append_left (p xs ys : List Char)
    (h : containsChars p ys = true) : containsChars p (xs ++ ys) = true := by
  induction xs with
  | nil => simpa using h
  | cons x xs ih => simp [containsChars, ih]

theorem strContains_append_right (a b pat : String)
    (h : strContains b pat = true) : strContains (a ++ b) pat = true := by
  unfold strContains at h ⊢
  rw [String.data_append]
  exact containsChars_append_left _ _ _ h

theorem strContains_left_prefix (a b : String) : strContains (a ++ b) a = true := by
  unfold strContains
  rw [String.data_append]
  exact containsChars_of_startsWithChars _ _ (startsWithChars_self _ _)

theorem strContains_of_startsWith_left (lit tail pat : String)
    (h : startsWithChars pat.data lit.data = true) :
    strContains (lit ++ tail) pat = true := by
  unfold strContains
  rw [String.data_append]
  exact containsChars_of_startsWithChars _ _ (startsWithChars_append _ _ _ h)

theorem append_ne_empty_right (a b : String) (hb : b ≠ "") : a ++ b ≠ "" := by
  intro h
  apply hb
  have hd := congrArg String.data h
  rw [String.data_append] at hd
  have hbnil : b.data = [] := (List.append_eq_nil.mp hd).2
  cases b with
  | mk l =>
    simp only at hbnil
    subst hbnil
    rfl

theorem append_ne_empty_left (a b : String) (ha : a ≠ "") : a ++ b ≠ "" := by
  intro h
  apply ha
  have hd := congrArg String.data h
  rw [String.data_append] at hd
  have hanil : a.data = [] := (List.append_eq_nil.mp hd).1
  cases a with
  | mk l =>
    simp only at hanil
    subst hanil
    rfl

theorem findFirstSchemaIssue_ref (issues : List ValidationIssue)
    (issue : ValidationIssue) (h : findFirstSchemaIssue issues = some issue) :
    issue.reference = "schema-field-required" ∨
    issue.reference = "schema-version-deprecated" ∨
    issue.reference = "schema-version-extraction-error" := by
  induction issues with
  | nil => simp [findFirstSchemaIssue] at h
  | cons i rest ih =>
    simp only [findFirstSchemaIssue] at h
    by_cases hc : i.reference = "schema-field-required" ∨
        i.reference = "schema-version-deprecated" ∨
        i.reference = "schema-version-extraction-error"
    · rw [if_pos hc] at h
      cases h
      exact hc
    · rw [if_neg hc] at h
      exact ih h

theorem firstSchemaMessage_of_findFirst (sj : ServerJSON)
    (issues : List ValidationIssue) (issue : ValidationIssue)
    (h : findFirstSchemaIssue issues = some issue) :
    firstSchemaMessage sj issues = (schemaIssueMessage sj issue).getD "" := by
  induction issues with
  | nil => simp [findFirstSchemaIssue] at h
  | cons i rest ih =>
    simp only [findFirstSchemaIssue] at h
    by_cases hc : i.reference = "schema-field-required" ∨
        i.reference = "schema-version-deprecated" ∨
        i.reference = "schema-version-extraction-error"
    · rw [if_pos hc] at h
      cases h
      rcases hc with h1 | h1 | h1 <;>
        simp [firstSchemaMessage, schemaIssueMessage, h1]
    · rw [if_neg hc] at h
      push_neg at hc
      obtain ⟨h1, h2, h3⟩ := hc
      simp only [firstSchemaMessage, schemaIssueMessage, h1, h2, h3, if_false,
        if_neg h1, if_neg h2, if_neg h3]
      exact ih h

theorem firstSchemaMessage_of_findFirst_none (sj : ServerJSON)
    (issues : List ValidationIssue)
    (h : findFirstSchemaIssue issues = none) :
    firstSchemaMessage sj issues = "" := by
  induction issues with
  | nil => rfl
  | cons i rest ih =>
    simp only [findFirstSchemaIssue] at h
    by_cases hc : i.reference = "schema-field-required" ∨
        i.reference = "schema-version-deprecated" ∨
        i.reference = "schema-version-extraction-error"
    · rw [if_pos hc] at h
      cases h
    · rw [if_neg hc] at h
      push_neg at hc
      obtain ⟨h1, h2, h3⟩ := hc
      simp only [firstSchemaMessage, schemaIssueMessage, if_neg h1, if_neg h2, if_neg h3]
      exact ih h

theorem secondPassEntries_eq_filter (n : Nat) (issues : List ValidationIssue) :
    secondPassEntries n issues =
      numberedEntries n (issues.filter fun i =>
        !(i.reference == "schema-field-required" ||
          i.reference == "schema-version-deprecated")) := by
  induction issues generalizing n with
  | nil => rfl
  | cons i rest ih =>
    by_cases hc : i.reference = "schema-field-required" ∨
        i.reference = "schema-version-deprecated"
    · have hb : (!(i.reference == "schema-field-required" ||
          i.reference == "schema-version-deprecated")) = false := by
        rcases hc with h | h <;> simp [h]
      simp only [secondPassEntries, if_pos hc, List.filter_cons, hb,
        Bool.false_eq_true, if_false]
      exact ih n
    · have hb : (!(i.reference == "schema-field-required" ||
          i.reference == "schema-version-deprecated")) = true := by
        push_neg at hc
        simp [hc.1, hc.2]
      simp only [secondPassEntries, if_neg hc, List.filter_cons, hb, if_true,
        numberedEntries]
      exact congrArg _ (ih (n + 1))

/-- C4: in the publish command's 422 fallback, if the validate call itself
returns an error, the fallback is abandoned and the command's final error
wraps the original publish error (never the validate error, which does not
appear in the outcome at all). -/
theorem publish422_validate_error_preserves_publish_error
    (d hd td perr verr : String) (sj : ServerJSON)
    (tinfo : List (String × String)) :
    (PublishCommand ⟨ReadResult.ok d, Except.ok sj, Except.ok hd,
        ReadResult.ok td, Except.ok tinfo, ⟨422, some perr⟩,
        Except.error verr⟩).outcome = some ("publish failed: " ++ perr) := rfl

/-- C8: when the token store file does not exist, the publish command fails
immediately with the fixed message containing "not authenticated" and
issues no publish or validate request. -/
theorem publish_no_token_store (d hd : String) (sj : ServerJSON)
    (tp : Except String (List (String × String))) (pr : PublishCallResult)
    (vr : Except String ValidationResult) :
    PublishCommand ⟨ReadResult.ok d, Except.ok sj, Except.ok hd,
        ReadResult.notExist, tp, pr, vr⟩ =
      ⟨some "not authenticated. Run 'mcp-publisher login <method>' first", [], []⟩ ∧
    strContains "not authenticated. Run 'mcp-publisher login <method>' first"
      "not authenticated" = true :=
  ⟨rfl, by decide⟩

/-- C7: when the publish call fails with any status other than 422, exactly
one publish request is made, no validate request is made, and the command's
error wraps the original error and contains "publish failed". -/
theorem publish_non422_no_validate
    (d hd td perr : String) (status : Nat) (sj : ServerJSON)
    (tinfo : List (String × String)) (vres : Except String ValidationResult)
    (hs : status ≠ 422) :
    (PublishCommand ⟨ReadResult.ok d, Except.ok sj, Except.ok hd,
        ReadResult.ok td, Except.ok tinfo, ⟨status, some perr⟩,
        vres⟩).publishRequests.length = 1 ∧
    (PublishCommand ⟨ReadResult.ok d, Except.ok sj, Except.ok hd,
        ReadResult.ok td, Except.ok tinfo, ⟨status, some perr⟩,
        vres⟩).validateRequests = [] ∧
    (PublishCommand ⟨ReadResult.ok d, Except.ok sj, Except.ok hd,
        ReadResult.ok td, Except.ok tinfo, ⟨status, some perr⟩,
        vres⟩).outcome = some ("publish failed: " ++ perr) ∧
    strContains ("publish failed: " ++ perr) "publish failed" = true := by
  refine ⟨?_, ?_, ?_, ?_⟩
  · simp [PublishCommand, hs]
  · simp [PublishCommand, hs]
  · simp [PublishCommand, hs]
  · exact strContains_of_startsWith_left "publish failed: " perr "publish failed"
      (by decide)

/-- C7 witness: a concrete 401 failure. -/
theorem publish_non422_no_validate_witness :
    (PublishCommand ⟨ReadResult.ok "data", Except.ok sjDep, Except.ok "/home/u",
        ReadResult.ok "tok",
        Except.ok [("token", "t"), ("registry", "https://example.com")],
        ⟨401, some "server returned status 401: Unauthorized"⟩,
        Except.ok ⟨true, []⟩⟩).publishRequests.length = 1 ∧
    (PublishCommand ⟨ReadResult.ok "data", Except.ok sjDep, Except.ok "/home/u",
        ReadResult.ok "tok",
        Except.ok [("token", "t"), ("registry", "https://example.com")],
        ⟨401, some "server returned status 401: Unauthorized"⟩,
        Except.ok ⟨true, []⟩⟩).validateRequests = [] ∧
    (PublishCommand ⟨ReadResult.ok "data", Except.ok sjDep, Except.ok "/home/u",
        ReadResult.ok "tok",
        Except.ok [("token", "t"), ("registry", "https://example.com")],
        ⟨401, some "server returned status 401: Unauthorized"⟩,
        Except.ok ⟨true, []⟩⟩).outcome =
      some ("publish failed: " ++ "server returned status 401: Unauthorized") ∧
    strContains ("publish failed: " ++ "server returned status 401: Unauthorized")
      "publish failed" = true :=
  publish_non422_no_validate "data" "/home/u" "tok"
    "server returned status 401: Unauthorized" 401 sjDep
    [("token", "t"), ("registry", "https://example.com")]
    (Except.ok ⟨true, []⟩) (by decide)

/-- C9: both the publish and validate requests target the URL obtained by
appending a slash to the configured base exactly when it does not already
end in one, followed by the fixed suffix `v0/publish` or `v0/validate`; a
base already ending in a slash is used unchanged. -/
theorem endpoint_url_normalization (base : String) :
    publishEndpointURL base =
      (if base.data.getLast? = some '/' then base else base ++ "/") ++
        "v0/publish" ∧
    validateEndpointURL base =
      (if base.data.getLast? = some '/' then base else base ++ "/") ++
        "v0/validate" := by
  unfold publishEndpointURL validateEndpointURL hasSuffixSlash
  cases h : base.data.getLast? with
  | none => simp
  | some c =>
    by_cases hc : c = '/'
    · simp [hc]
    · simp [hc]

/-- C1 counterexample: a publish run whose publish call fails with 422 and
whose validate call succeeds reporting `valid == true` surfaces the wrapped
original publish error, not the generic "validation failed" error. -/
theorem publish422_validTrue_counterexample :
    (PublishCommand envC1ce).outcome =
      some "publish failed: server returned status 422: boom" ∧
    (PublishCommand envC1ce).outcome ≠ some "validation failed" := by
  refine ⟨rfl, ?_⟩
  rw [show (PublishCommand envC1ce).outcome =
      some "publish failed: server returned status 422: boom" from rfl]
  simp

/-- C1 amended: in the publish command's 422 fallback, if the validate call
succeeds and the returned result has `valid == true`, the command surfaces
the original publish error wrapped as "publish failed: ...", regardless of
the issues reported. -/
theorem publish422_validTrue_returns_publish_error
    (d hd td perr : String) (sj : ServerJSON)
    (tinfo : List (String × String)) (issues : List ValidationIssue) :
    (PublishCommand ⟨ReadResult.ok d, Except.ok sj, Except.ok hd,
        ReadResult.ok td, Except.ok tinfo, ⟨422, some perr⟩,
        Except.ok ⟨true, issues⟩⟩).outcome =
      some ("publish failed: " ++ perr) := rfl

/-- C10: when the token store is absent, unreadable, malformed, or has an
empty `registry` entry, the validate command behaves exactly as with no
token store at all: it falls back to the default registry URL and still
issues its validate request there. -/
theorem validate_token_store_fallback
    (d hd : String) (sj : ServerJSON) (tr : ReadResult)
    (tp : Except String (List (String × String)))
    (vr : Except String ValidationResult)
    (h : tokenStoreUnusable tr tp) :
    (ValidateCommand ⟨[], ReadResult.ok d, Except.ok sj, Except.ok hd,
        tr, tp, vr⟩).validateRequests =
      [validateEndpointURL DefaultRegistryURL] ∧
    ValidateCommand ⟨[], ReadResult.ok d, Except.ok sj, Except.ok hd,
        tr, tp, vr⟩ =
      ValidateCommand ⟨[], ReadResult.ok d, Except.ok sj, Except.ok hd,
        ReadResult.notExist, tp, vr⟩ := by
  have hurl : validateRegistryURL tr tp = DefaultRegistryURL := by
    cases tr with
    | notExist => rfl
    | readError e => rfl
    | ok data =>
      cases tp with
      | error e => rfl
      | ok tinfo =>
        simp only [tokenStoreUnusable] at h
        simp [validateRegistryURL, h]
  constructor
  · cases vr with
    | error e =>
      simp [ValidateCommand, hurl]
    | ok result =>
      obtain ⟨v, iss⟩ := result
      cases v
      · by_cases hm :
          (printValidationIssues ⟨false, iss⟩ sj).1 = ""
        · simp [ValidateCommand, hurl, hm]
        · simp [ValidateCommand, hurl, hm]
      · simp [ValidateCommand, hurl]
  · have hurl2 : validateRegistryURL ReadResult.notExist tp = DefaultRegistryURL := rfl
    simp only [ValidateCommand, hurl, hurl2]

/-- C10 witness: a token file that decodes but records an empty `registry`
entry. -/
theorem validate_token_store_fallback_witness :
    (ValidateCommand ⟨[], ReadResult.ok "data", Except.ok sjDep,
        Except.ok "/home/u", ReadResult.ok "tok",
        Except.ok [("token", "t"), ("registry", "")],
        Except.ok ⟨true, []⟩⟩).validateRequests =
      [validateEndpointURL DefaultRegistryURL] ∧
    ValidateCommand ⟨[], ReadResult.ok "data", Except.ok sjDep,
        Except.ok "/home/u", ReadResult.ok "tok",
        Except.ok [("token", "t"), ("registry", "")],
        Except.ok ⟨true, []⟩⟩ =
      ValidateCommand ⟨[], ReadResult.ok "data", Except.ok sjDep,
        Except.ok "/home/u", ReadResult.notExist,
        Except.ok [("token", "t"), ("registry", "")],
        Except.ok ⟨true, []⟩⟩ :=
  validate_token_store_fallback "data" "/home/u" sjDep (ReadResult.ok "tok")
    (Except.ok [("token", "t"), ("registry", "")])
    (Except.ok ⟨true, []⟩) rfl

set_option maxRecDepth 10000 in
/-- C2 counterexample: after a 422, when the validate result's first (and
only) issue is a non-schema issue, the final error is the generic
"validation failed", which does not contain that issue's message text,
although the validate endpoint was called exactly once. -/
theorem publish422_first_issue_message_counterexample :
    (PublishCommand envC2ce).validateRequests.length = 1 ∧
    (PublishCommand envC2ce).outcome = some "validation failed" ∧
    strContains "validation failed"
      "version must be a specific version, not a range" = false :=
  ⟨rfl, rfl, by decide⟩

set_option maxRecDepth 10000 in
/-- C2 amended: after a 422 the validate endpoint is called exactly once;
the final error contains an issue's message text when the validate result
is invalid and the formatter's first pass matches an issue whose reference
is `schema-version-deprecated` or `schema-version-extraction-error` (for
`schema-field-required` the formatter emits a fixed text instead, and with
no schema issue the error is the generic "validation failed"). -/
theorem publish422_validate_once_and_schema_message
    (d hd td perr : String) (sj : ServerJSON)
    (tinfo : List (String × String)) (vres : Except String ValidationResult) :
    (PublishCommand ⟨ReadResult.ok d, Except.ok sj, Except.ok hd,
        ReadResult.ok td, Except.ok tinfo, ⟨422, some perr⟩,
        vres⟩).validateRequests.length = 1 ∧
    (∀ (issues : List ValidationIssue) (issue : ValidationIssue),
      vres = Except.ok ⟨false, issues⟩ →
      findFirstSchemaIssue issues = some issue →
      issue.reference ≠ "schema-field-required" →
      ∃ m, (PublishCommand ⟨ReadResult.ok d, Except.ok sj, Except.ok hd,
          ReadResult.ok td, Except.ok tinfo, ⟨422, some perr⟩,
          vres⟩).outcome = some m ∧
        strContains m issue.message = true) := by
  constructor
  · cases vres with
    | error e => rfl
    | ok result =>
      obtain ⟨v, iss⟩ := result
      cases v
      · by_cases hm : (printValidationIssues ⟨false, iss⟩ sj).1 = ""
        · simp [PublishCommand, hm]
        · simp [PublishCommand, hm]
      · rfl
  · intro issues issue hv hf hr
    subst hv
    have hm := firstSchemaMessage_of_findFirst sj issues issue hf
    have href := findFirstSchemaIssue_ref issues issue hf
    rcases href with h1 | h1 | h1
    · exact absurd h1 hr
    · simp [schemaIssueMessage, h1] at hm
      have hne : firstSchemaMessage sj issues ≠ "" := by
        rw [hm]
        exact append_ne_empty_right _ _ (append_ne_empty_left _ _ (by decide))
      refine ⟨firstSchemaMessage sj issues, ?_, ?_⟩
      · simp [PublishCommand, printValidationIssues, printSchemaValidationErrors,
          hne]
      · rw [hm]
        exact strContains_left_prefix _ _
    · simp [schemaIssueMessage, h1] at hm
      have hne : firstSchemaMessage sj issues ≠ "" := by
        rw [hm]
        exact append_ne_empty_right _ _ (by decide)
      refine ⟨firstSchemaMessage sj issues, ?_, ?_⟩
      · simp [PublishCommand, printValidationIssues, printSchemaValidationErrors,
          hne]
      · rw [hm]
        exact strContains_left_prefix _ _

set_option maxRecDepth 10000 in
/-- C2 witness: a 422 followed by a validate result whose single issue has
reference `schema-version-deprecated`; the final error contains its
message. -/
theorem publish422_validate_once_and_schema_message_witness :
    (PublishCommand ⟨ReadResult.ok "data", Except.ok sjDep, Except.ok "/home/u",
        ReadResult.ok "tok",
        Except.ok [("token", "t"), ("registry", "https://example.com")],
        ⟨422, some "server returned status 422: boom"⟩,
        Except.ok ⟨false, [issueDepW]⟩⟩).validateRequests.length = 1 ∧
    (∃ m, (PublishCommand ⟨ReadResult.ok "data", Except.ok sjDep,
          Except.ok "/home/u", ReadResult.ok "tok",
          Except.ok [("token", "t"), ("registry", "https://example.com")],
          ⟨422, some "server returned status 422: boom"⟩,
          Except.ok ⟨false, [issueDepW]⟩⟩).outcome = some m ∧
      strContains m issueDepW.message = true) := by
  have h := publish422_validate_once_and_schema_message "data" "/home/u" "tok"
    "server returned status 422: boom" sjDep
    [("token", "t"), ("registry", "https://example.com")]
    (Except.ok ⟨false, [issueDepW]⟩)
  exact ⟨h.1, h.2 [issueDepW] issueDepW rfl rfl (by decide)⟩

set_option maxRecDepth 10000 in
/-- C3 counterexample: a result whose schema issue has reference
`schema-field-required` and the message "name is required" (as in the
repository's own test data) produces the formatter's fixed text, which
contains both documentation links but not the original issue's message. -/
theorem schema_issue_message_containment_counterexample :
    findFirstSchemaIssue [issueFieldReq] = some issueFieldReq ∧
    strContains (printSchemaValidationErrors ⟨false, [issueFieldReq]⟩ sjDep)
      "Migration checklist:" = true ∧
    strContains (printSchemaValidationErrors ⟨false, [issueFieldReq]⟩ sjDep)
      "Full changelog with examples:" = true ∧
    strContains (printSchemaValidationErrors ⟨false, [issueFieldReq]⟩ sjDep)
      issueFieldReq.message = false :=
  ⟨rfl, by decide, by decide, by decide⟩

set_option maxRecDepth 10000 in
/-- C3 amended: for every result whose first-pass match is a schema issue,
the aggregated error contains both "Migration checklist:" and
"Full changelog with examples:"; it additionally contains the matched
issue's own message text when the reference is `schema-version-deprecated`
or `schema-version-extraction-error` (the `schema-field-required` case
emits a fixed text instead). -/
theorem schema_issue_remediation_links (result : ValidationResult)
    (sj : ServerJSON) (issue : ValidationIssue)
    (h : findFirstSchemaIssue result.issues = some issue) :
    strContains (printSchemaValidationErrors result sj)
      "Migration checklist:" = true ∧
    strContains (printSchemaValidationErrors result sj)
      "Full changelog with examples:" = true ∧
    (issue.reference ≠ "schema-field-required" →
      strContains (printSchemaValidationErrors result sj)
        issue.message = true) := by
  have hm := firstSchemaMessage_of_findFirst sj result.issues issue h
  have href := findFirstSchemaIssue_ref result.issues issue h
  unfold printSchemaValidationErrors
  rcases href with h1 | h1 | h1
  · simp [schemaIssueMessage, h1] at hm
    rw [hm]
    exact ⟨by decide, by decide, fun hr => absurd h1 hr⟩
  · simp [schemaIssueMessage, h1] at hm
    rw [hm]
    refine ⟨?_, ?_, fun hr => ?_⟩
    · exact strContains_append_right _ _ _ (strContains_append_right _ _ _
        (strContains_append_right _ _ _ (by decide)))
    · exact strContains_append_right _ _ _ (strContains_append_right _ _ _
        (strContains_append_right _ _ _ (by decide)))
    · exact strContains_left_prefix _ _
  · simp [schemaIssueMessage, h1] at hm
    rw [hm]
    exact ⟨strContains_append_right _ _ _ (by decide),
      strContains_append_right _ _ _ (by decide),
      fun hr => strContains_left_prefix _ _⟩

set_option maxRecDepth 10000 in
/-- C3 witness: remediation links and message containment at a concrete
deprecated-schema issue. -/
theorem schema_issue_remediation_links_witness :
    strContains (printSchemaValidationErrors ⟨false, [issueDepW]⟩ sjDep)
      "Migration checklist:" = true ∧
    strContains (printSchemaValidationErrors ⟨false, [issueDepW]⟩ sjDep)
      "Full changelog with examples:" = true ∧
    strContains (printSchemaValidationErrors ⟨false, [issueDepW]⟩ sjDep)
      issueDepW.message = true := by
  have h := schema_issue_remediation_links ⟨false, [issueDepW]⟩ sjDep issueDepW rfl
  exact ⟨h.1, h.2.1, h.2.2 (by decide)⟩

set_option maxRecDepth 10000 in
/-- C5 counterexample: an issue with reference
`schema-version-extraction-error` is rendered by the first pass (the
aggregated message is built from it) and is nevertheless also rendered as a
numbered entry by the second pass, so it is not skipped. -/
theorem second_pass_extraction_not_skipped :
    issueExtr.reference = "schema-version-extraction-error" ∧
    (printValidationIssues ⟨false, [issueExtr]⟩ sjDep).1 =
      issueExtr.message ++ extractionTail ∧
    (printValidationIssues ⟨false, [issueExtr]⟩ sjDep).2 =
      [renderIssueEntry 1 issueExtr] :=
  ⟨rfl, rfl, rfl⟩

/-- C5 amended: when the result is invalid, the second pass renders exactly
the issues whose reference is neither `schema-field-required` nor
`schema-version-deprecated` (issues with `schema-version-extraction-error`
are included), one numbered entry each, in server order. -/
theorem second_pass_numbered_entries (result : ValidationResult)
    (sj : ServerJSON) (h : result.valid = false) :
    (printValidationIssues result sj).2 =
      numberedEntries 1 (result.issues.filter fun i =>
        !(i.reference == "schema-field-required" ||
          i.reference == "schema-version-deprecated")) := by
  simp [printValidationIssues, h, secondPassEntries_eq_filter]

/-- C5 witness: the second pass at a concrete invalid result with one
non-schema issue. -/
theorem second_pass_numbered_entries_witness :
    (printValidationIssues ⟨false, [issueRange]⟩ sjDep).2 =
      numberedEntries 1
        ((⟨false, [issueRange]⟩ : ValidationResult).issues.filter fun i =>
          !(i.reference == "schema-field-required" ||
            i.reference == "schema-version-deprecated")) :=
  second_pass_numbered_entries ⟨false, [issueRange]⟩ sjDep rfl

set_option maxRecDepth 10000 in
/-- C6 counterexample: a result with `valid == true` carrying one
warning-severity `schema-version-deprecated` issue makes the formatter
return a non-empty aggregated string. -/
theorem valid_true_nonempty_aggregate_counterexample :
    (⟨true, [issueDepW]⟩ : ValidationResult).valid = true ∧
    (printValidationIssues ⟨true, [issueDepW]⟩ sjDep).1 ≠ "" :=
  ⟨rfl, by decide⟩

/-- C6 amended: when `valid == true` only the first pass runs (the second
pass renders nothing) and the returned string is the first pass's schema
message, which is empty whenever no issue matches a schema reference. -/
theorem valid_true_first_pass_only (result : ValidationResult)
    (sj : ServerJSON) (h : result.valid = true) :
    printValidationIssues result sj =
      (printSchemaValidationErrors result sj, []) ∧
    (findFirstSchemaIssue result.issues = none →
      (printValidationIssues result sj).1 = "") := by
  constructor
  · simp [printValidationIssues, h]
  · intro hn
    simp [printValidationIssues, h, printSchemaValidationErrors,
      firstSchemaMessage_of_findFirst_none sj result.issues hn]

/-- C6 witness: a concrete valid result with no issues. -/
theorem valid_true_first_pass_only_witness :
    printValidationIssues ⟨true, []⟩ sjDep =
      (printSchemaValidationErrors ⟨true, []⟩ sjDep, []) ∧
    (printValidationIssues ⟨true, []⟩ sjDep).1 = "" := by
  have h := valid_true_first_pass_only ⟨true, []⟩ sjDep rfl
  exact ⟨h.1, h.2 rfl⟩
